import Mathlib

/-!
Verification of the Race Weekend Timing Resolver of `paddock-ai-backend`
(`f1_service.py`): `_parse_session_time`, `_get_race_status_with_timing`,
`_is_live_session`, `_get_next_session`, `_calculate_cache_ttl_with_timing`.

Time is modelled as `Int` seconds.  Concrete values use the epoch
2025-01-01 00:00:00 UTC (the choice of epoch is irrelevant to every
statement; it only makes concrete numbers small).  A naive local datetime
is identified with the seconds-count of the same wall-clock reading taken
as if it were UTC, so `datetime` arithmetic (`timedelta`, comparisons)
becomes `Int` arithmetic.
-/

/-- Lifecycle status strings returned by `_get_race_status_with_timing`. -/
inductive Status where
  | upcoming
  | current
  | completed
deriving DecidableEq, Repr

/-- The five session kinds used by the resolver (`sessions` list in
`_is_live_session` / `_get_next_session`). -/
inductive SessionKind where
  | practice1
  | practice2
  | practice3
  | qualifying
  | race
deriving DecidableEq, Repr

/-- Python exceptions that can escape the resolver functions.  Only
`KeyError` (raised by `event['sessions'][k]` when the key `k` is absent)
is reachable in the modelled fragment. -/
inductive PyError where
  | keyError (key : String)
deriving DecidableEq, Repr

/-- Model of a `pytz` timezone object for one IANA identifier.
`offsetAt n` is the UTC offset (in seconds, east positive) that
`tz.localize(naive)` attaches to the naive local reading `n` — pytz with
its default `is_dst=False` resolves both ambiguous and non-existent local
times to the standard-time (non-DST) interpretation instead of raising.
`utcOffsetAt u` is the offset actually in effect at the UTC instant `u`,
which is what `astimezone(tz)` applies when converting a UTC instant back
to local wall-clock time. -/
structure PytzTz where
  offsetAt : Int → Int
  utcOffsetAt : Int → Int

/-- Model of the `time_str` argument of `_parse_session_time`: every
string either is well-formed ISO-8601 and denotes one naive local
datetime (`datetime.fromisoformat` succeeds), or is malformed
(`fromisoformat` raises, caught by the `except` in `_parse_session_time`). -/
inductive TimeStr where
  | iso (naive : Int)
  | malformed

/-- Model of the `timezone_str` argument: either a known IANA identifier,
for which `pytz.timezone` yields a timezone object, or an unknown one,
for which it raises `UnknownTimeZoneError` (caught by the same `except`). -/
inductive TzStr where
  | known (tz : PytzTz)
  | unknown

/-- Model of one entry of the schedule config consumed by the resolver:
the fields of the event dict that the five modelled functions read.
`sessions` is the `event['sessions']` dict restricted to the five keys the
code ever looks up (`none` = key absent); `timezone` is
`event['timezone']`; `date` is `event['date']` parsed with
`strptime('%Y-%m-%d')` and localized to UTC midnight (the string is taken
to be a well-formed date). -/
structure Event where
  sessions : SessionKind → Option TimeStr
  timezone : TzStr
  date : Int

/-- Embedding of `_parse_session_time` (f1_service.py lines 44-58): parse
the naive datetime, localize it to the event timezone, convert to UTC;
any exception yields `None`. -/
def parse_session_time : TimeStr → TzStr → Option Int
  | .iso naive, .known tz => some (naive - tz.offsetAt naive)
  | .malformed, _ => none
  | .iso _, .unknown => none

/-- Embedding of `_get_race_status_with_timing` (lines 60-97), with `now`
(the `current_time` read inside the function) made an explicit argument.
Note the two unguarded dict accesses `event['sessions']['race']` and
`event['sessions']['practice1']`: each raises `KeyError` when the key is
absent, modelled as `Except.error`. -/
def get_race_status_with_timing (e : Event) (now : Int) : Except PyError Status :=
  match e.sessions .race with
  | none => .error (.keyError "race")
  | some race_str =>
    match parse_session_time race_str e.timezone with
    | none =>
      -- Fallback to date-based calculation
      .ok (if now > e.date + 86400 then .completed
           else if now < e.date - 2 * 86400 then .upcoming
           else .current)
    | some race_time =>
      match e.sessions .practice1 with
      | none => .error (.keyError "practice1")
      | some practice1_str =>
        let practice1_time := parse_session_time practice1_str e.timezone
        let race_weekend_start := practice1_time.getD (race_time - 2 * 86400)
        let race_weekend_end := race_time + 3 * 3600
        .ok (if now > race_weekend_end then .completed
             else if now ≥ race_weekend_start then .current
             else .upcoming)

/-- The fixed scan order of session kinds (the local `sessions` list in
`_is_live_session` and `_get_next_session`). -/
def sessionsOrder : List SessionKind :=
  [.practice1, .practice2, .practice3, .qualifying, .race]

/-- The `session_durations` table of `_is_live_session`, in seconds. -/
def sessionDuration : SessionKind → Int
  | .practice1 => 90 * 60
  | .practice2 => 90 * 60
  | .practice3 => 60 * 60
  | .qualifying => 90 * 60
  | .race => 180 * 60

/-- The loop body of `_is_live_session` over the remaining session kinds:
for each kind present in `event['sessions']` whose start parses, return
`(True, name)` as soon as `start ≤ now ≤ start + duration`. -/
def liveScan (e : Event) (now : Int) : List SessionKind → Bool × Option SessionKind
  | [] => (false, none)
  | s :: rest =>
    match e.sessions s with
    | some tstr =>
      match parse_session_time tstr e.timezone with
      | some session_start =>
        if session_start ≤ now ∧ now ≤ session_start + sessionDuration s then
          (true, some s)
        else liveScan e now rest
      | none => liveScan e now rest
    | none => liveScan e now rest

/-- Embedding of `_is_live_session` (lines 99-125). -/
def is_live_session (e : Event) (now : Int) : Bool × Option SessionKind :=
  liveScan e now sessionsOrder

/-- The loop body of `_get_next_session`: return the first defined session
whose parsed start time is strictly after `now`, with that time. -/
def nextScan (e : Event) (now : Int) : List SessionKind → Option SessionKind × Option Int
  | [] => (none, none)
  | s :: rest =>
    match e.sessions s with
    | some tstr =>
      match parse_session_time tstr e.timezone with
      | some session_time =>
        if session_time > now then (some s, some session_time)
        else nextScan e now rest
      | none => nextScan e now rest
    | none => nextScan e now rest

/-- Embedding of `_get_next_session` (lines 127-143). -/
def get_next_session (e : Event) (now : Int) : Option SessionKind × Option Int :=
  nextScan e now sessionsOrder

/-- Embedding of `_calculate_cache_ttl_with_timing` (lines 145-173).  The
status computation runs first; an exception it raises propagates.  In the
`upcoming` branch the code re-reads `event['sessions']['race']`
unguarded (another potential `KeyError`, unreachable when the status
computation succeeded) and re-parses the race time. -/
def calculate_cache_ttl_with_timing (e : Event) (now : Int) : Except PyError Int :=
  match get_race_status_with_timing e now with
  | .error err => .error err
  | .ok status =>
    let l := is_live_session e now
    if l.1 then .ok (if l.2 = some SessionKind.race then 15 else 30)
    else if status = Status.current then .ok 60
    else if status = Status.upcoming then
      match e.sessions .race with
      | none => .error (.keyError "race")
      | some race_str =>
        match parse_session_time race_str e.timezone with
        | some next_race_time =>
          if next_race_time - now < 7 * 24 * 3600 then .ok 300 else .ok 1800
        | none => .ok 1800
    else .ok 86400

/-- Model of `astimezone(local_tz)` applied to a UTC instant, keeping only
the naive wall-clock part of the result: the timezone's offset in effect
at that UTC instant is added. -/
def utc_to_local (tz : PytzTz) (u : Int) : Int :=
  u + tz.utcOffsetAt u

/-- Combined session lookup and parse: the UTC start instant of session
kind `s` of event `e`, when the key is present and the time parses.  This
is exactly the composition the source performs inline
(`self._parse_session_time(event['sessions'][name], event['timezone'])`
guarded by `name in event['sessions']`). -/
def sessionStart (e : Event) (s : SessionKind) : Option Int :=
  (e.sessions s).bind (fun tstr => parse_session_time tstr e.timezone)

/-- Session kind `s` is live at `now`: the event defines it, its start
resolves, and `now` lies in the inclusive interval
`[start, start + duration]`. -/
def sessionLiveb (e : Event) (now : Int) (s : SessionKind) : Bool :=
  match sessionStart e s with
  | some session_start =>
    decide (session_start ≤ now) && decide (now ≤ session_start + sessionDuration s)
  | none => false

/-- Session kind `s` is defined, resolves, and starts strictly after `now`. -/
def sessionAfterb (e : Event) (now : Int) (s : SessionKind) : Bool :=
  match sessionStart e s with
  | some t => decide (now < t)
  | none => false

/-- The race start is a known instant at most 7 days in the future of
`now` (the "race start is within 7 days of now" condition of the spec's
TTL decision table). -/
def race_within_7b (e : Event) (now : Int) : Bool :=
  match sessionStart e .race with
  | some t => decide (now ≤ t) && decide (t - now < 7 * 24 * 3600)
  | none => false

/-- The spec's TTL decision table (§4.1 of the spec), written down row by
row, evaluated top to bottom with first match winning, for a given
already-computed lifecycle `status`. -/
def ttl_table (e : Event) (now : Int) (status : Status) : Int :=
  let l := is_live_session e now
  if l.1 ∧ l.2 = some SessionKind.race then 15
  else if l.1 then 30
  else if status = Status.current then 60
  else if status = Status.upcoming ∧ race_within_7b e now then 300
  else if status = Status.upcoming then 1800
  else 86400

/-! Concrete timezone and events used for witnesses and counterexamples. -/

/-- Model of `pytz.timezone('Europe/London')` restricted to naive local
times and UTC instants inside the year 2025 (epoch 2025-01-01 00:00 UTC).
In 2025 BST (UTC+1) is in effect from 2025-03-30 01:00 UTC (day 88 of the
year, local clocks jump 01:00 → 02:00) until 2025-10-26 01:00 UTC (day
298, local clocks fall 02:00 → 01:00).  `offsetAt` resolves the gap hour
[01:00, 02:00) of 2025-03-30 and the ambiguous hour [01:00, 02:00) of
2025-10-26 to GMT, which is what `localize` with its default
`is_dst=False` does; `utcOffsetAt` is the offset actually in effect at a
UTC instant. -/
def london2025 : PytzTz where
  offsetAt := fun n =>
    if 88 * 86400 + 7200 ≤ n ∧ n < 298 * 86400 + 3600 then 3600 else 0
  utcOffsetAt := fun u =>
    if 88 * 86400 + 3600 ≤ u ∧ u < 298 * 86400 + 3600 then 3600 else 0

/-- Scenario A event: race local time 2025-07-06T15:00:00 (day 186 of
2025), timezone Europe/London, no practice sessions configured, calendar
date 2025-07-06. -/
def scenarioA : Event where
  sessions := fun s => match s with
    | .race => some (.iso (186 * 86400 + 15 * 3600))
    | _ => none
  timezone := .known london2025
  date := 186 * 86400

/-- Scenario A query instant: 2025-07-06 14:00:00 UTC. -/
def nowA : Int := 186 * 86400 + 14 * 3600

/-- Scenario E event: qualifying at local 14:00 the day before the race
(day 19 of 2025), race at local 15:00 on day 20, timezone Europe/London
(GMT at these dates), no practice sessions. -/
def scenarioE : Event where
  sessions := fun s => match s with
    | .qualifying => some (.iso (19 * 86400 + 14 * 3600))
    | .race => some (.iso (20 * 86400 + 15 * 3600))
    | _ => none
  timezone := .known london2025
  date := 20 * 86400

/-- Scenario E query instant: 30 minutes after the qualifying start. -/
def nowE : Int := 19 * 86400 + 14 * 3600 + 1800

/-- Conforming event (race mandatory, qualifying optional, no practice)
with a parseable race time on day 100 of 2025. -/
def noPracticeEvent : Event where
  sessions := fun s => match s with
    | .race => some (.iso (100 * 86400 + 15 * 3600))
    | .qualifying => some (.iso (99 * 86400 + 14 * 3600))
    | _ => none
  timezone := .known london2025
  date := 100 * 86400

/-- Conforming event with a parseable race time on day 150 of 2025 and no
practice session. -/
def c1Event : Event where
  sessions := fun s => match s with
    | .race => some (.iso (150 * 86400 + 15 * 3600))
    | _ => none
  timezone := .known london2025
  date := 150 * 86400

/-- Conforming event with a parseable race time on day 200 of 2025 and no
practice session. -/
def c3Event : Event where
  sessions := fun s => match s with
    | .race => some (.iso (200 * 86400 + 15 * 3600))
    | .qualifying => some (.iso (199 * 86400 + 14 * 3600))
    | _ => none
  timezone := .known london2025
  date := 200 * 86400

/-- Event whose race time string is malformed (Scenario D shape): only
the date-only fallback can classify it. -/
def malformedRaceEvent : Event where
  sessions := fun s => match s with
    | .race => some .malformed
    | _ => none
  timezone := .known london2025
  date := 50 * 86400

/-- Event with a malformed race time whose `practice1` session is live at
`nowUL` while the date-only fallback classifies the event `upcoming`. -/
def upcomingLiveEvent : Event where
  sessions := fun s => match s with
    | .race => some .malformed
    | .practice1 => some (.iso (5 * 86400))
    | _ => none
  timezone := .known london2025
  date := 10 * 86400

/-- Query instant at which `upcomingLiveEvent`'s practice1 is live. -/
def nowUL : Int := 5 * 86400

/-- Full event (practice1 and race both parseable) used for witnesses:
practice1 at local 11:00 on day 184 of 2025, race at local 15:00 on day
186, Europe/London. -/
def witnessEventC2 : Event where
  sessions := fun s => match s with
    | .practice1 => some (.iso (184 * 86400 + 11 * 3600))
    | .race => some (.iso (186 * 86400 + 15 * 3600))
    | _ => none
  timezone := .known london2025
  date := 186 * 86400

/-- Event with a malformed race time, nothing live, and a far-future
calendar date. -/
def c10WitnessEvent : Event where
  sessions := fun s => match s with
    | .race => some .malformed
    | _ => none
  timezone := .known london2025
  date := 60 * 86400

/-- Naive local reading 2025-03-30 01:30:00, which does not exist on
Europe/London wall clocks (the 01:00→02:00 spring-forward gap). -/
def gapNaive : Int := 88 * 86400 + 5400

/-! Helper lemmas shared by the claim theorems. -/

/-- The live-session loop returns the first kind of the scanned list that
satisfies `sessionLiveb`, as `(true, some s)`, and `(false, none)` when no
scanned kind is live. -/
theorem liveScan_eq_find (e : Event) (now : Int) :
    ∀ l : List SessionKind,
      liveScan e now l =
        match l.find? (sessionLiveb e now) with
        | some s => (true, some s)
        | none => (false, none) := by
  intro l
  induction l with
  | nil => rfl
  | cons s rest ih =>
    by_cases h : sessionLiveb e now s = true
    · rw [List.find?_cons_of_pos _ h]
      rcases hs : e.sessions s with _ | tstr
      · rw [sessionLiveb, sessionStart, hs] at h; simp at h
      · rcases hp : parse_session_time tstr e.timezone with _ | session_start
        · rw [sessionLiveb, sessionStart, hs] at h; simp [hp] at h
        · rw [sessionLiveb, sessionStart, hs] at h
          simp only [Option.some_bind, hp, Bool.and_eq_true, decide_eq_true_eq] at h
          simp [liveScan, hs, hp, h]
    · rw [List.find?_cons_of_neg _ h]
      rw [← ih]
      rcases hs : e.sessions s with _ | tstr
      · simp [liveScan, hs]
      · rcases hp : parse_session_time tstr e.timezone with _ | session_start
        · simp [liveScan, hs, hp]
        · rw [sessionLiveb, sessionStart, hs] at h
          simp only [Option.some_bind, hp, Bool.and_eq_true, decide_eq_true_eq] at h
          rw [Classical.not_and_iff_or_not_not] at h
          simp only [liveScan, hs, hp]
          rw [if_neg]
          intro hc
          rcases h with h | h
          · exact h hc.1
          · exact h hc.2

/-- The next-session loop returns the first kind of the scanned list that
satisfies `sessionAfterb`, paired with its resolved start, and
`(none, none)` when no scanned kind qualifies. -/
theorem nextScan_eq_find (e : Event) (now : Int) :
    ∀ l : List SessionKind,
      nextScan e now l =
        match l.find? (sessionAfterb e now) with
        | some s => (some s, sessionStart e s)
        | none => (none, none) := by
  intro l
  induction l with
  | nil => rfl
  | cons s rest ih =>
    by_cases h : sessionAfterb e now s = true
    · rw [List.find?_cons_of_pos _ h]
      rcases hs : e.sessions s with _ | tstr
      · rw [sessionAfterb, sessionStart, hs] at h; simp at h
      · rcases hp : parse_session_time tstr e.timezone with _ | session_time
        · rw [sessionAfterb, sessionStart, hs] at h; simp [hp] at h
        · rw [sessionAfterb, sessionStart, hs] at h
          simp only [Option.some_bind, hp, decide_eq_true_eq] at h
          simp [nextScan, hs, hp, h, sessionStart]
    · rw [List.find?_cons_of_neg _ h]
      rw [← ih]
      rcases hs : e.sessions s with _ | tstr
      · simp [nextScan, hs]
      · rcases hp : parse_session_time tstr e.timezone with _ | session_time
        · simp [nextScan, hs, hp]
        · rw [sessionAfterb, sessionStart, hs] at h
          simp only [Option.some_bind, hp, decide_eq_true_eq] at h
          simp [nextScan, hs, hp, h]

/-- When the race time parses and the status computation returns `ok`,
the event's `practice1` key is present and the returned status is the
window classification of the code's timing path. -/
theorem status_ok_of_timing (e : Event) (now : Int) (tstr : TimeStr) (t : Int) (s : Status)
    (hs : e.sessions .race = some tstr)
    (hp : parse_session_time tstr e.timezone = some t)
    (h : get_race_status_with_timing e now = .ok s) :
    ∃ p1, e.sessions .practice1 = some p1 ∧
      s = (if now > t + 3 * 3600 then .completed
           else if now ≥ (parse_session_time p1 e.timezone).getD (t - 2 * 86400) then .current
           else .upcoming) := by
  simp only [get_race_status_with_timing, hs, hp] at h
  rcases hp1 : e.sessions .practice1 with _ | p1
  · rw [hp1] at h; exact absurd h (by simp)
  · rw [hp1] at h
    simp only [Except.ok.injEq] at h
    refine ⟨p1, rfl, ?_⟩
    rw [← h]

/-- When the status computation classifies `upcoming` on the timing path,
`now` has not passed the end of the weekend window. -/
theorem upcoming_le_weekend_end (e : Event) (now : Int) (tstr : TimeStr) (t : Int)
    (hs : e.sessions .race = some tstr)
    (hp : parse_session_time tstr e.timezone = some t)
    (h : get_race_status_with_timing e now = .ok .upcoming) :
    now ≤ t + 3 * 3600 := by
  obtain ⟨p1, _, hval⟩ := status_ok_of_timing e now tstr t .upcoming hs hp h
  split_ifs at hval with h1 h2
  omega

/-- When `_is_live_session` reports no live session, no session kind in
the scan order satisfies the live condition; in particular the race does
not. -/
theorem live_false_race (e : Event) (now : Int)
    (h : (is_live_session e now).1 = false) :
    sessionLiveb e now .race = false := by
  have hval := liveScan_eq_find e now sessionsOrder
  rcases hf : sessionsOrder.find? (sessionLiveb e now) with _ | s
  · have := List.find?_eq_none.mp hf SessionKind.race (by decide)
    simpa using this
  · rw [hf] at hval
    have hv2 : is_live_session e now = (true, some s) := hval
    rw [hv2] at h
    simp at h

/-! Claim theorems. -/

/-- Claim C2, counterexample: the claim says `recommended_cache_ttl`
returns the decision-table value for every event and `now`; on an event
whose race time parses but which configures no `practice1` session, the
status computation inside it raises `KeyError('practice1')` instead, so
no value is returned at all. -/
theorem cache_ttl_raises_without_practice1 :
    calculate_cache_ttl_with_timing noPracticeEvent (90 * 86400)
      = .error (.keyError "practice1") := rfl

/-- Claim C2 (amended): for every event and `now` on which the status
computation succeeds, `_calculate_cache_ttl_with_timing` returns exactly
the value of the spec's decision table evaluated top to bottom with first
match winning. -/
theorem cache_ttl_matches_decision_table (e : Event) (now : Int) (status : Status)
    (h : get_race_status_with_timing e now = .ok status) :
    calculate_cache_ttl_with_timing e now = .ok (ttl_table e now status) := by
  simp only [calculate_cache_ttl_with_timing, h, ttl_table]
  by_cases hl : (is_live_session e now).1 = true
  · by_cases hr : (is_live_session e now).2 = some SessionKind.race
    · rw [if_pos hl, if_pos hr, if_pos ⟨hl, hr⟩]
    · rw [if_pos hl, if_neg hr, if_neg (fun hc => hr hc.2), if_pos hl]
  · have hl' : (is_live_session e now).1 = false := by simpa using hl
    cases status with
    | current => simp [hl']
    | completed => simp [hl']
    | upcoming =>
      rcases hs : e.sessions .race with _ | tstr
      · rw [get_race_status_with_timing, hs] at h; exact absurd h (by simp)
      · rcases hp : parse_session_time tstr e.timezone with _ | nrt
        · have hw : race_within_7b e now = false := by
            rw [race_within_7b, sessionStart, hs]
            simp [hp]
          simp [hl', hs, hp, hw]
        · have hub : now ≤ nrt + 3 * 3600 := upcoming_le_weekend_end e now tstr nrt hs hp h
          have hnl := live_false_race e now hl'
          rw [sessionLiveb, sessionStart, hs] at hnl
          simp only [Option.some_bind, hp, Bool.and_eq_false_iff,
            decide_eq_false_iff_not, not_le] at hnl
          have hd : sessionDuration SessionKind.race = 10800 := rfl
          have hlt : now < nrt := by
            rcases hnl with h1 | h1
            · exact h1
            · omega
          have hw : race_within_7b e now = decide (nrt - now < 7 * 24 * 3600) := by
            rw [race_within_7b, sessionStart, hs]
            simp only [Option.some_bind, hp]
            rw [decide_eq_true (le_of_lt hlt)]
            simp
          simp [hl', hs, hp, hw]
          split_ifs <;> rfl

/-- Claim C2 witness: a concrete upcoming event with `practice1`
configured and the race three days away; the status computation succeeds
with `upcoming`, the TTL equals the decision-table value, and that table
value is 300 (race within 7 days). -/
theorem cache_ttl_matches_decision_table_witness :
    get_race_status_with_timing witnessEventC2 (183 * 86400) = .ok .upcoming ∧
    calculate_cache_ttl_with_timing witnessEventC2 (183 * 86400)
      = .ok (ttl_table witnessEventC2 (183 * 86400) .upcoming) ∧
    ttl_table witnessEventC2 (183 * 86400) .upcoming = 300 :=
  ⟨rfl, cache_ttl_matches_decision_table witnessEventC2 (183 * 86400) .upcoming rfl, rfl⟩

/-- Claim C1: for an event conforming to the data model with a resolvable
race time and no practice session configured — exactly the case the
claim's "race time minus 2 days when no practice is configured" branch
covers — the code raises `KeyError('practice1')` from the unguarded
access `event['sessions']['practice1']` instead of classifying the event.
The first conjunct records that the race time indeed resolves. -/
theorem race_status_keyerror_without_practice1 :
    parse_session_time (.iso (150 * 86400 + 15 * 3600)) (.known london2025)
      = some (150 * 86400 + 14 * 3600) ∧
    get_race_status_with_timing c1Event (148 * 86400) = .error (.keyError "practice1") :=
  ⟨rfl, rfl⟩

/-- Claim C3: a session-time parse failure alone is indeed caught and
downgraded to the date-only fallback (first conjunct, an event whose race
time string is malformed is classified `current` at its calendar date),
but classification is not exception-free on every conforming event: with
a resolvable race time and no practice1 session, `KeyError('practice1')`
escapes to the caller (second conjunct). -/
theorem classification_raises_on_conforming_event :
    get_race_status_with_timing malformedRaceEvent (50 * 86400) = .ok .current ∧
    get_race_status_with_timing c3Event (199 * 86400) = .error (.keyError "practice1") :=
  ⟨rfl, rfl⟩

/-- Claim C4: `_is_live_session` returns `(true, s)` for the first kind
`s` in the fixed order practice1, practice2, practice3, qualifying, race
that the event defines, whose UTC start resolves, and whose inclusive
interval `[start, start + duration]` (durations 90/90/60/90/180 minutes)
contains `now`; and `(false, none)` when no kind matches. -/
theorem live_session_characterization (e : Event) (now : Int) :
    is_live_session e now =
      match sessionsOrder.find? (sessionLiveb e now) with
      | some s => (true, some s)
      | none => (false, none) :=
  liveScan_eq_find e now sessionsOrder

/-- Claim C5: `_get_next_session` returns the first kind in the fixed
order that the event defines and whose resolved start is strictly after
`now`, together with that instant, and `(none, none)` otherwise; and on
the Scenario E event (qualifying the day before the race), 30 minutes
into qualifying, `_is_live_session` reports the qualifying live while
`_get_next_session` points at the race and its UTC instant. -/
theorem next_session_characterization_and_scenarioE :
    (∀ (e : Event) (now : Int),
      get_next_session e now =
        match sessionsOrder.find? (sessionAfterb e now) with
        | some s => (some s, sessionStart e s)
        | none => (none, none)) ∧
    is_live_session scenarioE nowE = (true, some .qualifying) ∧
    get_next_session scenarioE nowE = (some .race, some (20 * 86400 + 15 * 3600)) :=
  ⟨fun e now => nextScan_eq_find e now sessionsOrder, rfl, rfl⟩

/-- Claim C6: on the Scenario A event (race local 2025-07-06T15:00:00 in
Europe/London, no practice sessions) at now = 2025-07-06 14:00:00 UTC,
live-session detection does return `(true, race)`, but the status
computation — and therefore the TTL computation, which invokes it first —
raises `KeyError('practice1')` instead of returning `current` and 15. -/
theorem scenarioA_evaluation :
    is_live_session scenarioA nowA = (true, some .race) ∧
    get_race_status_with_timing scenarioA nowA = .error (.keyError "practice1") ∧
    calculate_cache_ttl_with_timing scenarioA nowA = .error (.keyError "practice1") :=
  ⟨rfl, rfl, rfl⟩

/-- Claim C7: for every event whose race session time resolves, the
status never moves backward in the order upcoming < current < completed
as `now` advances: once `current`, only `current` or `completed` can
follow; once `completed`, only `completed`. -/
theorem race_status_monotone (e : Event) (now1 now2 : Int) (tstr : TimeStr) (t : Int)
    (hs : e.sessions .race = some tstr)
    (hp : parse_session_time tstr e.timezone = some t)
    (h12 : now1 ≤ now2) (s1 s2 : Status)
    (h1 : get_race_status_with_timing e now1 = .ok s1)
    (h2 : get_race_status_with_timing e now2 = .ok s2) :
    (s1 = .current → s2 = .current ∨ s2 = .completed) ∧
    (s1 = .completed → s2 = .completed) := by
  obtain ⟨p1, hp1, hv1⟩ := status_ok_of_timing e now1 tstr t s1 hs hp h1
  obtain ⟨p1', hp1', hv2⟩ := status_ok_of_timing e now2 tstr t s2 hs hp h2
  rw [hp1] at hp1'
  obtain rfl : p1 = p1' := by injection hp1'
  subst hv1; subst hv2
  constructor
  · intro hc
    split_ifs at hc ⊢ with ha hb hcnd hd
    · exact Or.inr rfl
    · exact Or.inl rfl
    · omega
  · intro hc
    split_ifs at hc ⊢ with ha hb hcnd hd
    · rfl
    · omega
    · omega

/-- Claim C7 witness: on the concrete witness event, `now1` during the
race weekend yields `current` and `now2` two days after the race yields
`completed`, and the monotonicity conclusion holds there. -/
theorem race_status_monotone_witness :
    (Status.current = .current → Status.completed = .current ∨ Status.completed = .completed) ∧
    (Status.current = .completed → Status.completed = .completed) :=
  race_status_monotone witnessEventC2 (185 * 86400) (188 * 86400)
    (.iso (186 * 86400 + 15 * 3600)) (186 * 86400 + 14 * 3600)
    (by rfl) (by rfl) (by decide) .current .completed (by rfl) (by rfl)

/-- Claim C8: the live-session result names at most one session kind;
`is_live = true` always comes with exactly one kind that the event
actually defines, and `is_live = false` always comes with no kind. -/
theorem live_session_at_most_one_defined (e : Event) (now : Int) :
    match is_live_session e now with
    | (true, some s) => (e.sessions s).isSome = true
    | (true, none) => False
    | (false, o) => o = none := by
  have hval := liveScan_eq_find e now sessionsOrder
  rcases hf : sessionsOrder.find? (sessionLiveb e now) with _ | s
  · rw [hf] at hval
    have hv2 : is_live_session e now = (false, none) := hval
    rw [hv2]
  · rw [hf] at hval
    have hv2 : is_live_session e now = (true, some s) := hval
    rw [hv2]
    show (e.sessions s).isSome = true
    have hlive : sessionLiveb e now s = true := List.find?_some hf
    rw [sessionLiveb] at hlive
    rcases hss : sessionStart e s with _ | u
    · rw [hss] at hlive; cases hlive
    · rw [sessionStart] at hss
      rcases h2 : e.sessions s with _ | tstr
      · rw [h2] at hss; cases hss
      · simp [h2]

/-- Claim C9, counterexample: the naive local reading 2025-03-30 01:30 in
Europe/London lies in the spring-forward gap; `_parse_session_time`
nevertheless converts it (pytz resolves the non-existent time to GMT
without raising), but converting the resulting UTC instant back through
the same timezone yields local 02:30, not the original naive time. -/
theorem localize_roundtrip_gap_counterexample :
    parse_session_time (.iso gapNaive) (.known london2025) = some gapNaive ∧
    utc_to_local london2025 gapNaive ≠ gapNaive := by
  refine ⟨rfl, ?_⟩
  intro hc
  have : (88 * 86400 + 5400 : Int) + 3600 = 88 * 86400 + 5400 := hc
  omega

/-- Claim C9 (amended): for every naive local session time that
`_parse_session_time` converts to a UTC instant, if the timezone's offset
in effect at that UTC instant agrees with the offset chosen during
localization — which holds for every naive time that is an actual
wall-clock reading of the zone, i.e. everything outside a DST
spring-forward gap — then converting back reproduces the original naive
time. -/
theorem localize_roundtrip_amended (tz : PytzTz) (n u : Int)
    (h : parse_session_time (.iso n) (.known tz) = some u)
    (hoff : tz.utcOffsetAt u = tz.offsetAt n) :
    utc_to_local tz u = n := by
  simp only [parse_session_time, Option.some.injEq] at h
  subst h
  rw [utc_to_local, hoff]
  ring

/-- Claim C9 witness: the local reading 2025-07-05 12:00 Europe/London
(BST) converts to 11:00 UTC and back to itself. -/
theorem localize_roundtrip_amended_witness :
    utc_to_local london2025 (186 * 86400 + 11 * 3600) = 186 * 86400 + 12 * 3600 :=
  localize_roundtrip_amended london2025 (186 * 86400 + 12 * 3600)
    (186 * 86400 + 11 * 3600) rfl rfl

/-- Claim C10, counterexample: status `upcoming` with an unparseable race
time does not force a TTL of 1800 — on an event whose practice1 session
is live at `now`, the live rows of the table fire first and the TTL is
30. -/
theorem upcoming_unparseable_live_ttl_counterexample :
    get_race_status_with_timing upcomingLiveEvent nowUL = .ok .upcoming ∧
    sessionStart upcomingLiveEvent .race = none ∧
    calculate_cache_ttl_with_timing upcomingLiveEvent nowUL = .ok 30 ∧
    (30 : Int) ≠ 1800 :=
  ⟨rfl, rfl, rfl, by decide⟩

/-- Claim C10 (amended): when the status is `upcoming`, the race time
does not parse, and no live session is detected, the TTL computation
skips the 7-day proximity check and returns 1800; and every value the
TTL computation returns lies in the set 15, 30, 60, 300, 1800, 86400. -/
theorem ttl_fallback_1800_and_range :
    (∀ (e : Event) (now : Int),
      get_race_status_with_timing e now = .ok .upcoming →
      sessionStart e .race = none →
      (is_live_session e now).1 = false →
      calculate_cache_ttl_with_timing e now = .ok 1800) ∧
    (∀ (e : Event) (now v : Int),
      calculate_cache_ttl_with_timing e now = .ok v →
      v = 15 ∨ v = 30 ∨ v = 60 ∨ v = 300 ∨ v = 1800 ∨ v = 86400) := by
  constructor
  · intro e now h hnr hl
    rcases hs : e.sessions .race with _ | tstr
    · rw [get_race_status_with_timing, hs] at h
      exact absurd h (by simp)
    · rw [sessionStart, hs] at hnr
      simp only [Option.some_bind] at hnr
      simp [calculate_cache_ttl_with_timing, h, hl, hs, hnr]
  · intro e now v hv
    rcases hst : get_race_status_with_timing e now with err | status
    · rw [calculate_cache_ttl_with_timing, hst] at hv
      exact absurd hv (by simp)
    · rw [calculate_cache_ttl_with_timing, hst] at hv
      simp only at hv
      split_ifs at hv with h1 h2 h3 h4
      · simp_all
      · simp_all
      · simp_all
      · rcases hs : e.sessions .race with _ | tstr
        · rw [hs] at hv; exact absurd hv (by simp)
        · rw [hs] at hv
          simp only at hv
          rcases hp : parse_session_time tstr e.timezone with _ | nrt
          · rw [hp] at hv; simp_all
          · rw [hp] at hv
            simp only at hv
            split_ifs at hv <;> simp_all
      · simp_all

/-- Claim C10 witness: a concrete event with a malformed race time, a
far-future calendar date, and nothing live: the TTL is 1800, a value in
the allowed set. -/
theorem ttl_fallback_1800_and_range_witness :
    calculate_cache_ttl_with_timing c10WitnessEvent (40 * 86400) = .ok 1800 ∧
    ((1800 : Int) = 15 ∨ (1800 : Int) = 30 ∨ (1800 : Int) = 60 ∨
      (1800 : Int) = 300 ∨ (1800 : Int) = 1800 ∨ (1800 : Int) = 86400) := by
  have h1 := ttl_fallback_1800_and_range.1 c10WitnessEvent (40 * 86400) (by rfl) (by rfl) (by rfl)
  exact ⟨h1, ttl_fallback_1800_and_range.2 c10WitnessEvent (40 * 86400) 1800 h1⟩
